import Mathlib

/-!
Verification of the clock-report transformation pipeline (src/app.py).

The pipeline: load a workbook, filter the source sheet by category code
(substring match on the 9th column), deduplicate and sort four grouping
columns, mask repeated parent labels for display, flag duplicate DU IDs,
and summarize distinct Name counts per Company.

Cell values are modelled as `Option String`: `none` is a missing value
(pandas `NaN`), `some s` a present string.  String primitives that the
code relies on (case folding, trimming, substring containment, ordering)
are implemented structurally over the character list of a `String`,
matching Python code-point semantics.
-/

namespace ClockReport

/-! ### String primitives (code-point semantics, as in Python / pandas) -/

abbrev Cell := Option String

/-- `str(value)` as applied by `.astype(str)`: a missing value (`NaN`)
prints as the string `nan`, a present string is unchanged. -/
def strForm : Cell → String
  | none => "nan"
  | some s => s

/-- Case folding, as in `str.contains(case=False)` (ASCII lowering). -/
def lowerStr (s : String) : String := ⟨s.data.map Char.toLower⟩

/-- Character-list prefix test. -/
def isPrefixC : List Char → List Char → Bool
  | [], _ => true
  | _ :: _, [] => false
  | a :: as, b :: bs => a == b && isPrefixC as bs

/-- Character-list substring test. -/
def isSubstrC (pat : List Char) : List Char → Bool
  | [] => pat == []
  | c :: cs => isPrefixC pat (c :: cs) || isSubstrC pat cs

/-- Case-insensitive substring containment: `hay.str.contains(pat, case=False)`. -/
def containsCI (hay : String) (pat : String) : Bool :=
  isSubstrC (lowerStr pat).data (lowerStr hay).data

/-- Drop leading whitespace characters. -/
def dropWS : List Char → List Char
  | [] => []
  | c :: cs => if c.isWhitespace then dropWS cs else c :: cs

/-- `str.strip()` applied to column headers on line 77 of src/app.py. -/
def trimStr (s : String) : String :=
  ⟨(dropWS ((dropWS s.data).reverse)).reverse⟩

/-- Python string comparison (code-point lexicographic) via character lists. -/
def strLe (a b : String) : Prop := a.data ≤ b.data

/-- Strict Python string comparison. -/
def strLt (a b : String) : Prop := a.data < b.data

instance : DecidableRel strLe := fun a b => inferInstanceAs (Decidable (a.data ≤ b.data))

instance : DecidableRel strLt := fun a b => inferInstanceAs (Decidable (a.data < b.data))

instance : IsTotal String strLe := ⟨fun a b => le_total a.data b.data⟩

instance : IsTrans String strLe := ⟨fun _ _ _ h h2 => le_trans h h2⟩

/-! ### Pivot data model

`Row4` is a row of `df_filtered[pivot_cols]` (raw cells of the four
grouping columns, line 130); `PRow` the same row after `fillna("")`
(line 23). -/

structure Row4 where
  company : Cell
  name : Cell
  account : Cell
  duid : Cell
deriving DecidableEq, Repr

structure PRow where
  company : String
  name : String
  account : String
  duid : String
deriving DecidableEq, Repr

/-- Default row used to read list elements positionally. -/
def pdflt : PRow := ⟨"", "", "", ""⟩

/-- `fillna("")` on one projected row (line 23 of src/app.py). -/
def fillna (r : Row4) : PRow :=
  ⟨r.company.getD (""), r.name.getD (""), r.account.getD (""), r.duid.getD ("")⟩

/-- `drop_duplicates()` (line 130): keeps the first occurrence of every
distinct raw four-tuple.  Structural recursion with a seen-accumulator. -/
def dropDupAux (seen : List Row4) : List Row4 → List Row4
  | [] => []
  | r :: rs => if r ∈ seen then dropDupAux seen rs else r :: dropDupAux (r :: seen) rs

def dropDup (l : List Row4) : List Row4 := dropDupAux [] l

/-- Sort key of a pivot row: the four column values, compared
lexicographically column by column, each column by Python string order. -/
def keyOf (p : PRow) : List (List Char) :=
  [p.company.data, p.name.data, p.account.data, p.duid.data]

/-- `sort_values(by=group_cols)` order (line 23). -/
def pivotLE (a b : PRow) : Prop := keyOf a ≤ keyOf b

/-- Strict version of the sort order. -/
def pivotLT (a b : PRow) : Prop := keyOf a < keyOf b

instance : DecidableRel pivotLE := fun a b => inferInstanceAs (Decidable (keyOf a ≤ keyOf b))

instance : DecidableRel pivotLT := fun a b => inferInstanceAs (Decidable (keyOf a < keyOf b))

instance : IsTotal PRow pivotLE := ⟨fun a b => le_total (keyOf a) (keyOf b)⟩

instance : IsTrans PRow pivotLE := ⟨fun _ _ _ h h2 => le_trans h h2⟩

/-- `df_sorted` of `create_pivot_view` (line 23): drop duplicates on the
raw tuples, replace missing values by the empty string, sort. -/
def sortedRows (xs : List Row4) : List PRow :=
  List.insertionSort pivotLE ((dropDup xs).map fillna)

/-- The four column values of a sorted row, in grouping order. -/
def colsOf (p : PRow) : List String := [p.company, p.name, p.account, p.duid]

/-- One step of the masking loop body (lines 45-55): if the parent chain
is still identical and the value equals the previous row value, emit an
empty cell and keep the flag; otherwise emit the value and clear it. -/
def maskStep (flag : Bool) (v prevVal : String) : String × Bool :=
  if flag && (v == prevVal) then ("", flag) else (v, false)

/-- The masking loop body for one row with previous row `p`, unrolled
over the fixed grouping columns Company, Name, Account, DU ID. -/
def maskRow (p r : PRow) : List String :=
  let s0 := maskStep true r.company p.company
  let s1 := maskStep s0.2 r.name p.name
  let s2 := maskStep s1.2 r.account p.account
  let s3 := maskStep s2.2 r.duid p.duid
  [s0.1, s1.1, s2.1, s3.1]

/-- The display-row loop of `create_pivot_view` (lines 41-57).  With the
initial tracker (`prev_row` all `None`) every comparison `val == None` is
false, so the first row is emitted in full. -/
def displayRowsAux : Option PRow → List PRow → List (List String)
  | _, [] => []
  | none, r :: rs => colsOf r :: displayRowsAux (some r) rs
  | some p, r :: rs => maskRow p r :: displayRowsAux (some r) rs

/-- `df_display` of `create_pivot_view` applied to the sorted rows. -/
def displayRows (xs : List Row4) : List (List String) :=
  displayRowsAux none (sortedRows xs)

/-- Rows `i-1` and `i` agree on every grouping column from Company up to
and including column `c` (the flag chain of the masking loop). -/
def agreeUpTo (p r : PRow) : Nat → Bool
  | 0 => r.company == p.company
  | 1 => (r.company == p.company) && (r.name == p.name)
  | 2 => (r.company == p.company) && (r.name == p.name) && (r.account == p.account)
  | _ + 3 =>
    (r.company == p.company) && (r.name == p.name) && (r.account == p.account) &&
      (r.duid == p.duid)

/-- Duplicate DU ID flag (line 151): the row at position `i` of the
sorted rows is flagged iff its actual DU ID value occurs in more than
one sorted row. -/
def dupFlag (s : List PRow) (i : Nat) : Bool :=
  decide (1 < (s.filter (fun q => q.duid == (s.getD i pdflt).duid)).length)

/-! ### Summary aggregator

`SRow` is a row of the filtered subset projected onto the two columns
the summary reads (Company and Name). -/

structure SRow where
  company : Cell
  name : Cell
deriving DecidableEq, Repr

/-- `groupby("Company")` keys (line 175): pandas drops missing keys and
returns the groups sorted ascending by the key. -/
def groupCompanies (rows : List SRow) : List String :=
  List.insertionSort strLe (rows.filterMap (fun r => r.company)).dedup

/-- `["Name"].nunique()` for the group of company `c` (line 175): the
number of distinct present Name values among the rows whose Company is
exactly `c` (pandas `nunique` ignores missing values). -/
def nuniqueNames (rows : List SRow) (c : String) : Nat :=
  ((rows.filter (fun r => r.company == some c)).filterMap (fun r => r.name)).dedup.length

/-- The summary table (lines 175-176) and its grand total (line 191):
one row per group key, and the sum of the per-group counts. -/
def summarize (rows : List SRow) : List (String × Nat) × Nat :=
  let srs := (groupCompanies rows).map (fun c => (c, nuniqueNames rows c))
  (srs, (srs.map Prod.snd).sum)

/-! ### Workbook loading, filtering and emission -/

/-- A sheet: column headers plus rows of cells.  `pandas.read_excel`
yields rectangular data; a position beyond a row's length reads as a
missing value. -/
structure Table where
  header : List String
  rows : List (List Cell)
deriving DecidableEq, Repr

/-- A workbook: named sheets in their file order (`sheet_name=None`
preserves every sheet, line 67). -/
abbrev Workbook := List (String × Table)

def sourceName : String := "Clock Detail Report"

def pivotCols : List String := ["Company", "Name", "Account", "DU ID"]

def categories : List String := ["ECNB", "ECMW"]

/-- Sheet lookup by name (`all_sheets[name]`). -/
def lookupSheet (wb : Workbook) (n : String) : Option Table :=
  match wb.find? (fun p => p.1 == n) with
  | none => none
  | some p => some p.2

/-- Header cleanup (line 77): `df_source.columns.astype(str).str.strip()`.
Headers are already strings in the model, so this is the strip. -/
def stripHeader (t : Table) : Table :=
  { t with header := t.header.map trimStr }

/-- The filter mask of line 114 applied to one row:
`row.iloc[8].astype(str).str.contains(category, case=False, na=False)`.
`astype(str)` turns a missing value into the string `nan`, so the
`na=False` fallback is never reached. -/
def rowMatches (cat : String) (r : List Cell) : Bool :=
  containsCI (strForm (r.getD 8 none)) cat

/-- `df_filtered = df_source[mask]` (line 115): order-preserving row filter. -/
def catFilter (rows : List (List Cell)) (cat : String) : List (List Cell) :=
  rows.filter (rowMatches cat)

/-- Read the cell of the column named `c` from a row (`df[c]` lookup:
first column whose header equals `c`). -/
def cellAt (hdr : List String) (r : List Cell) (c : String) : Cell :=
  match hdr.findIdx? (fun h => h == c) with
  | none => none
  | some i => r.getD i none

/-- `df_filtered[pivot_cols]` for one row (line 130). -/
def projectRow (hdr : List String) (r : List Cell) : Row4 :=
  ⟨cellAt hdr r ("Company"), cellAt hdr r ("Name"),
    cellAt hdr r ("Account"), cellAt hdr r ("DU ID")⟩

/-- The pivot sheet contents: grouping headers and the display rows (the
duplicate flags and the summary block are formatting on the same cells). -/
def pivotTable (hdr : List String) (filtered : List (List Cell)) : Table :=
  { header := pivotCols,
    rows := (displayRows (filtered.map (projectRow hdr))).map (fun row => row.map some) }

/-- One iteration of the category loop (lines 107-197): check the column
count, filter, check the grouping columns, and emit the Data and Pivot
sheets for the category. -/
def processCategory (src : Table) (cat : String) : Except String (List (String × Table)) :=
  if src.header.length < 9 then
    Except.error ("Error: File has fewer than 9 columns.")
  else
    let filtered := catFilter src.rows cat
    let missing := pivotCols.filter (fun c => !(src.header.contains c))
    if missing.isEmpty then
      Except.ok [("Data " ++ cat, { header := src.header, rows := filtered }),
        ("Pivot " ++ cat, pivotTable src.header filtered)]
    else
      Except.error ("Missing columns")

/-- Fold step of the category loop: a failed category aborts the run
(`st.stop()`), a successful one appends its two sheets. -/
def addCategory (src : Table) (acc : Except String Workbook) (cat : String) :
    Except String Workbook :=
  match acc with
  | Except.error e => Except.error e
  | Except.ok sheets =>
    match processCategory src cat with
    | Except.error e => Except.error e
    | Except.ok s => Except.ok (sheets ++ s)

/-- The whole pipeline (lines 64-199): find the source sheet, strip its
headers (line 77 mutates the stored sheet in place, so the original
sheets written on lines 102-103 contain the stripped source sheet), then
process the categories in order.  The result is the sheet sequence of
the output workbook, or the first error. -/
def buildReport (wb : Workbook) : Except String Workbook :=
  match lookupSheet wb sourceName with
  | none => Except.error ("Error: The file must contain a sheet named Clock Detail Report.")
  | some t0 =>
    let src := stripHeader t0
    let originals := wb.map (fun p => if p.1 == sourceName then (p.1, stripHeader p.2) else p)
    categories.foldl (addCategory src) (Except.ok originals)

/-! ### Predicates and concrete inputs used by the theorems -/

/-- No grouping cell of the raw row is the literal empty string (a present
empty string is distinct from a missing value before `fillna`). -/
def cleanRow (r : Row4) : Prop :=
  r.company ≠ some ("") ∧ r.name ≠ some ("") ∧ r.account ≠ some ("") ∧ r.duid ≠ some ("")

instance : DecidablePred cleanRow := fun r =>
  inferInstanceAs (Decidable (r.company ≠ some ("") ∧ r.name ≠ some ("") ∧
    r.account ≠ some ("") ∧ r.duid ≠ some ("")))

/-- The DU ID of a raw row is missing or the literal empty string, i.e. it
normalizes to the empty string under `fillna`. -/
def duidBlank (r : Row4) : Bool := r.duid.getD ("") == ""

/-- Two subset rows that differ only in the Company value, all other
grouping cells missing. -/
def exC1 : List Row4 := [⟨some ("A"), none, none, none⟩, ⟨some ("B"), none, none, none⟩]

/-- Two subset rows that differ only as missing versus literal empty
string in the Company cell. -/
def exC2 : List Row4 := [⟨none, none, none, none⟩, ⟨some (""), none, none, none⟩]

/-- Two subset rows equal on Company, Name and Account whose DU IDs are a
missing value and a literal empty string. -/
def exC3 : List Row4 :=
  [⟨some ("A"), some ("N"), some ("X"), none⟩, ⟨some ("A"), some ("N"), some ("X"), some ("")⟩]

/-- A clean two-row subset sharing Company. -/
def exC1W : List Row4 :=
  [⟨some ("A"), some ("N"), some ("X"), some ("D")⟩,
   ⟨some ("A"), some ("M"), some ("X"), some ("D")⟩]

/-- A clean two-row subset with distinct Companies. -/
def exC2W : List Row4 :=
  [⟨some ("B"), some ("N"), some ("X"), some ("D")⟩,
   ⟨some ("A"), some ("N"), some ("X"), some ("D")⟩]

/-- Two distinct rows with blank-normalizing DU IDs. -/
def exC10 : List Row4 :=
  [⟨some ("A"), some ("N"), some ("X"), none⟩, ⟨some ("B"), some ("N"), some ("X"), some ("")⟩]

/-- The summary scenario: Company Acme has Names Jane, Jane, Bob and
Company Zen has Name Sam. -/
def exC5 : List SRow :=
  [⟨some ("Acme"), some ("Jane")⟩, ⟨some ("Acme"), some ("Jane")⟩,
   ⟨some ("Acme"), some ("Bob")⟩, ⟨some ("Zen"), some ("Sam")⟩]

/-- A source sheet with nine columns whose first header carries
surrounding whitespace, and one row classified ECNB. -/
def tblC6 : Table :=
  ⟨[" Company ", "Name", "Account", "DU ID", "B", "C", "D", "E", "Class"],
   [[some ("A"), some ("N"), some ("X"), some ("D"), none, none, none, none, some ("ECNB")]]⟩

/-- A workbook holding only that source sheet. -/
def wbC6 : Workbook := [(sourceName, tblC6)]

/-! ### Helper lemmas -/

theorem strData_inj {s t : String} (h : s.data = t.data) : s = t := by
  cases s; cases t; exact congrArg String.mk h

theorem keyOf_inj {a b : PRow} (h : keyOf a = keyOf b) : a = b := by
  cases a; cases b
  simp only [keyOf, List.cons.injEq, and_true] at h
  obtain ⟨h1, h2, h3, h4⟩ := h
  simp only [PRow.mk.injEq]
  exact ⟨strData_inj h1, strData_inj h2, strData_inj h3, strData_inj h4⟩

theorem mem_dropDupAux : ∀ (l seen : List Row4) (x : Row4),
    x ∈ dropDupAux seen l → x ∈ l ∧ x ∉ seen := by
  intro l
  induction l with
  | nil => intro seen x h; simp [dropDupAux] at h
  | cons r rs ih =>
    intro seen x h
    simp only [dropDupAux] at h
    by_cases hr : r ∈ seen
    · rw [if_pos hr] at h
      obtain ⟨h1, h2⟩ := ih seen x h
      exact ⟨List.mem_cons_of_mem _ h1, h2⟩
    · rw [if_neg hr] at h
      rcases List.mem_cons.mp h with rfl | h
      · exact ⟨List.mem_cons_self _ _, hr⟩
      · obtain ⟨h1, h2⟩ := ih _ x h
        refine ⟨List.mem_cons_of_mem _ h1, fun hx => h2 (List.mem_cons_of_mem _ hx)⟩

theorem nodup_dropDupAux : ∀ (l seen : List Row4), (dropDupAux seen l).Nodup := by
  intro l
  induction l with
  | nil => intro seen; simp [dropDupAux]
  | cons r rs ih =>
    intro seen
    simp only [dropDupAux]
    by_cases hr : r ∈ seen
    · rw [if_pos hr]; exact ih seen
    · rw [if_neg hr]
      refine List.nodup_cons.mpr ⟨fun hmem => ?_, ih _⟩
      exact (mem_dropDupAux _ _ _ hmem).2 (List.mem_cons_self _ _)

theorem mem_dropDup {l : List Row4} {x : Row4} (h : x ∈ dropDup l) : x ∈ l :=
  (mem_dropDupAux l [] x h).1

theorem nodup_dropDup (l : List Row4) : (dropDup l).Nodup :=
  nodup_dropDupAux l []

theorem cell_getD_inj {c d : Cell} (hc : c ≠ some ("")) (hd : d ≠ some (""))
    (h : c.getD ("") = d.getD ("")) : c = d := by
  cases c with
  | none =>
    cases d with
    | none => rfl
    | some t => exact absurd (congrArg some (show t = ("") from by simpa using h.symm)) hd
  | some s =>
    cases d with
    | none => exact absurd (congrArg some (show s = ("") from by simpa using h)) hc
    | some t => simpa using h

theorem fillna_inj {a b : Row4} (ha : cleanRow a) (hb : cleanRow b)
    (h : fillna a = fillna b) : a = b := by
  cases a; cases b
  simp only [fillna, PRow.mk.injEq] at h
  obtain ⟨h1, h2, h3, h4⟩ := h
  obtain ⟨ha1, ha2, ha3, ha4⟩ := ha
  obtain ⟨hb1, hb2, hb3, hb4⟩ := hb
  simp only [Row4.mk.injEq]
  exact ⟨cell_getD_inj ha1 hb1 h1, cell_getD_inj ha2 hb2 h2,
    cell_getD_inj ha3 hb3 h3, cell_getD_inj ha4 hb4 h4⟩

theorem sortedRows_perm (xs : List Row4) :
    (sortedRows xs).Perm ((dropDup xs).map fillna) :=
  List.perm_insertionSort _ _

theorem maskRow_getD (p r : PRow) (d : String) :
    ∀ c, c < 4 → (maskRow p r).getD c d =
      if agreeUpTo p r c then ("") else (colsOf r).getD c d := by
  intro c hc
  cases hb0 : (r.company == p.company) <;> cases hb1 : (r.name == p.name) <;>
    cases hb2 : (r.account == p.account) <;> cases hb3 : (r.duid == p.duid) <;>
    interval_cases c <;>
    simp [maskRow, maskStep, agreeUpTo, colsOf, hb0, hb1, hb2, hb3]

theorem displayRowsAux_getD_succ (l : List PRow) :
    ∀ (prev : Option PRow) (i : Nat), i + 1 < l.length →
      (displayRowsAux prev l).getD (i + 1) [] =
        maskRow (l.getD i pdflt) (l.getD (i + 1) pdflt) := by
  induction l with
  | nil => intro prev i h; simp at h
  | cons r rs ih =>
    intro prev i h
    cases i with
    | zero =>
      cases rs with
      | nil => simp at h
      | cons r2 rs2 => cases prev <;> rfl
    | succ j =>
      have hj : j + 1 < rs.length := by
        simpa using Nat.lt_of_succ_lt_succ h
      cases prev <;>
        simpa [displayRowsAux, List.getD_cons_succ] using ih (some r) j hj

theorem displayRows_getD_zero (xs : List Row4) (h : sortedRows xs ≠ []) :
    (displayRows xs).getD 0 [] = colsOf ((sortedRows xs).getD 0 pdflt) := by
  unfold displayRows displayRowsAux
  cases hs : sortedRows xs with
  | nil => exact absurd hs h
  | cons r rs => rfl

/-! ### Claim theorems -/

/-- Claim C1, counterexample to the stated iff: on the subset `exC1` the
display cell of row 1, column Name is the empty string although rows 0
and 1 of the sorted rows do not agree on the columns up to Name (the
actual Name value is itself the empty string, and a shown empty value is
indistinguishable from a masked one). -/
theorem masking_iff_counterexample :
    ((displayRows exC1).getD 1 []).getD 1 ("?") = "" ∧
      agreeUpTo ((sortedRows exC1).getD 0 pdflt) ((sortedRows exC1).getD 1 pdflt) 1 = false := by
  decide

/-- Claim C1 (amended): the first display row shows all four actual
values, and for every row `i > 0` and grouping column `c` the display
cell is the empty string if rows `i` and `i-1` of the sorted rows agree
on every column from Company up to and including `c`, and otherwise
equals the actual sorted value at that position (hence the cell is empty
iff the prefix agrees or the actual value is itself empty). -/
theorem masking_amended (xs : List Row4) :
    (sortedRows xs ≠ [] →
      (displayRows xs).getD 0 [] = colsOf ((sortedRows xs).getD 0 pdflt)) ∧
      ∀ i c, i + 1 < (sortedRows xs).length → c < 4 →
        ((displayRows xs).getD (i + 1) []).getD c ("") =
          if agreeUpTo ((sortedRows xs).getD i pdflt) ((sortedRows xs).getD (i + 1) pdflt) c
          then ("") else (colsOf ((sortedRows xs).getD (i + 1) pdflt)).getD c ("") := by
  refine ⟨displayRows_getD_zero xs, ?_⟩
  intro i c hi hc
  rw [show displayRows xs = displayRowsAux none (sortedRows xs) from rfl,
    displayRowsAux_getD_succ _ _ _ hi, maskRow_getD _ _ _ c hc]

theorem masking_amended_witness :
    ((displayRows exC1W).getD 1 []).getD 0 ("") =
      if agreeUpTo ((sortedRows exC1W).getD 0 pdflt) ((sortedRows exC1W).getD 1 pdflt) 0
      then ("") else (colsOf ((sortedRows exC1W).getD 1 pdflt)).getD 0 ("") :=
  (masking_amended exC1W).2 0 0 (by decide) (by decide)

/-- Claim C2, counterexample: on the subset `exC2` (one row all missing,
one row with a literal empty Company) duplicate removal happens before
blank normalization, so the sorted rows are two equal four-tuples and
are not pairwise distinct. -/
theorem sorted_rows_distinct_counterexample :
    ¬ (sortedRows exC2).Pairwise (fun a b => a ≠ b) := by
  decide

/-- Claim C2 (amended): the deduplicated rows are pairwise distinct as
four-tuples of raw, pre-normalization values; and the sorted rows are
pairwise distinct whenever no row of the subset carries a literal
empty-string value in a grouping column (without this proviso two sorted
rows can coincide, since duplicates are removed before blanks are
normalized to the empty string). -/
theorem sorted_rows_distinct_amended (xs : List Row4) :
    (dropDup xs).Pairwise (fun a b => a ≠ b) ∧
      ((∀ r ∈ xs, cleanRow r) → (sortedRows xs).Pairwise (fun a b => a ≠ b)) := by
  refine ⟨nodup_dropDup xs, fun hclean => ?_⟩
  refine (sortedRows_perm xs).nodup_iff.mpr ?_
  refine List.Nodup.map_on ?_ (nodup_dropDup xs)
  intro x hx y hy hxy
  exact fillna_inj (hclean x (mem_dropDup hx)) (hclean y (mem_dropDup hy)) hxy

theorem sorted_rows_distinct_witness :
    (sortedRows exC2W).Pairwise (fun a b => a ≠ b) :=
  (sorted_rows_distinct_amended exC2W).2 (by decide)

/-- Claim C8 (confirmed): the sorted rows are sorted ascending under the
lexicographic (Company, Name, Account, DU ID) order on blank-normalized
values, they are a permutation of the blank-normalized deduplicated
tuples, and the strict order is trichotomous: of two distinct pivot rows
exactly one sorts before the other. -/
theorem sort_order_spec (xs : List Row4) :
    List.Sorted pivotLE (sortedRows xs) ∧
      (sortedRows xs).Perm ((dropDup xs).map fillna) ∧
      ∀ a b : PRow, a ≠ b → Xor' (pivotLT a b) (pivotLT b a) := by
  refine ⟨List.sorted_insertionSort _ _, sortedRows_perm xs, ?_⟩
  intro a b hab
  have hk : keyOf a ≠ keyOf b := fun h => hab (keyOf_inj h)
  rcases lt_or_gt_of_ne hk with h | h
  · exact Or.inl ⟨h, fun h2 => absurd h (not_lt_of_gt h2)⟩
  · exact Or.inr ⟨h, fun h2 => absurd h (not_lt_of_gt h2)⟩

theorem sort_order_spec_witness :
    Xor' (pivotLT ⟨"a", "", "", ""⟩ ⟨"b", "", "", ""⟩)
      (pivotLT ⟨"b", "", "", ""⟩ ⟨"a", "", "", ""⟩) :=
  (sort_order_spec []).2.2 ⟨"a", "", "", ""⟩ ⟨"b", "", "", ""⟩ (by decide)

/-- Claim C3 (confirmed): the duplicate flag of position `i` is true iff
the actual DU ID value of the sorted row at `i` has multiplicity greater
than one among the DU ID values of the sorted rows; and (concretely, on
`exC3`) a row whose DU ID display cell is masked blank can still be
flagged, since the flag reads the actual sorted value, not the display. -/
theorem dup_flag_spec :
    (∀ (xs : List Row4) (i : Nat),
        dupFlag (sortedRows xs) i = true ↔
          1 < ((sortedRows xs).map (fun r => r.duid)).count
            (((sortedRows xs).getD i pdflt).duid)) ∧
      dupFlag (sortedRows exC3) 1 = true ∧
        ((displayRows exC3).getD 1 []).getD 3 ("?") = "" := by
  refine ⟨?_, by decide, by decide⟩
  intro xs i
  rw [dupFlag, decide_eq_true_iff, List.count_eq_countP, List.countP_map,
    List.countP_eq_length_filter]
  rfl

/-- Claim C10 (confirmed): when at least two rows of the deduplicated set
have a DU ID that is missing or blank, every sorted row whose normalized
DU ID is the empty string is flagged as a duplicate: `fillna` normalizes
all blank DU IDs to the empty string before the flag is computed, so they
all count as one shared value. -/
theorem blank_duid_flag (xs : List Row4) (i : Nat)
    (h2 : 2 ≤ (dropDup xs).countP duidBlank)
    (hdu : ((sortedRows xs).getD i pdflt).duid = "") :
    dupFlag (sortedRows xs) i = true := by
  rw [dupFlag, decide_eq_true_iff, ← List.countP_eq_length_filter]
  simp only [hdu]
  rw [(sortedRows_perm xs).countP_eq, List.countP_map]
  exact lt_of_lt_of_le one_lt_two h2

theorem blank_duid_flag_witness : dupFlag (sortedRows exC10) 0 = true :=
  blank_duid_flag exC10 0 (by decide) (by decide)

/-- Claim C9 (confirmed): rows whose Company value is missing contribute
nothing to the summary: removing them from the subset leaves the summary
rows and the grand total unchanged (pandas `groupby` drops missing group
keys). -/
theorem summary_ignores_missing_company (rows : List SRow) :
    summarize rows = summarize (rows.filter (fun r => r.company.isSome)) := by
  have h1 : (rows.filter (fun r => r.company.isSome)).filterMap (fun r => r.company) =
      rows.filterMap (fun r => r.company) := by
    induction rows with
    | nil => rfl
    | cons r rs ih => cases hc : r.company <;> simp [List.filter_cons, hc, ih]
  have h2 : ∀ c, rows.filter (fun r => (r.company == some c) && r.company.isSome) =
      rows.filter (fun r => r.company == some c) := by
    intro c
    apply List.filter_congr
    intro r _
    cases hc : r.company with
    | none => rfl
    | some s => simp
  simp only [summarize, groupCompanies, nuniqueNames, h1, List.filter_filter, h2]

/-- Claim C5 (confirmed): the grand total is the sum of the per-company
counts; the summary lists each distinct present Company value exactly
once, in the deterministic ascending string order; and each summary
count is the number of distinct present Name values among the raw subset
rows of that Company. -/
theorem summary_spec (rows : List SRow) :
    (summarize rows).2 = ((summarize rows).1.map Prod.snd).sum ∧
      ((summarize rows).1.map Prod.fst).Pairwise strLt ∧
      (∀ c, c ∈ (summarize rows).1.map Prod.fst ↔
        some c ∈ rows.map (fun r => r.company)) ∧
      ∀ p, p ∈ (summarize rows).1 →
        p.2 = ((rows.filter (fun r => r.company == some p.1)).filterMap
          (fun r => r.name)).toFinset.card := by
  have hm : (summarize rows).1.map Prod.fst = groupCompanies rows := by
    simp [summarize, List.map_map, Function.comp_def]
  refine ⟨rfl, ?_, ?_, ?_⟩
  · rw [hm]
    have hsorted : List.Pairwise strLe (groupCompanies rows) :=
      List.sorted_insertionSort _ _
    have hnodup : (groupCompanies rows).Nodup := by
      have hp : (groupCompanies rows).Perm ((rows.filterMap (fun r => r.company)).dedup) :=
        List.perm_insertionSort _ _
      exact hp.nodup_iff.mpr (List.nodup_dedup _)
    refine (hsorted.and hnodup).imp ?_
    intro a b hab
    exact lt_of_le_of_ne hab.1 (fun hd => hab.2 (strData_inj hd))
  · intro c
    rw [hm]
    simp [groupCompanies, List.mem_insertionSort, List.mem_dedup, List.mem_filterMap,
      List.mem_map, eq_comm]
  · intro p hp
    simp only [summarize] at hp
    obtain ⟨c, _, rfl⟩ := List.mem_map.mp hp
    simp [nuniqueNames, List.card_toFinset]

theorem summary_spec_witness :
    (2 : Nat) = ((exC5.filter (fun r => r.company == some ("Acme"))).filterMap
      (fun r => r.name)).toFinset.card :=
  (summary_spec exC5).2.2.2 ("Acme", 2) (by decide)

/-- Claim C4 (confirmed): for a source table with at least nine columns
and either category code of this system, a row enters the filtered
subset iff its ninth-column value is present and, case-folded, contains
the code as a substring (a missing value stringifies to `nan`, which
contains neither code, so missing values never match); the filter keeps
the original row order. -/
theorem category_filter_spec (src : Table) (cat : String) (r : List Cell)
    (_hcols : 9 ≤ src.header.length) (hcat : cat ∈ categories) :
    (r ∈ catFilter src.rows cat ↔
        r ∈ src.rows ∧ ∃ v, r.getD 8 none = some v ∧ containsCI v cat = true) ∧
      (catFilter src.rows cat).Sublist src.rows := by
  refine ⟨?_, List.filter_sublist _⟩
  rw [catFilter, List.mem_filter]
  have hiff : rowMatches cat r = true ↔ ∃ v, r.getD 8 none = some v ∧ containsCI v cat = true := by
    rw [rowMatches]
    cases hv : r.getD 8 none with
    | none =>
      simp only [hv, strForm]
      constructor
      · intro hm
        exfalso
        simp only [categories, List.mem_cons, List.not_mem_nil, or_false] at hcat
        rcases hcat with rfl | rfl
        · exact absurd hm (by decide)
        · exact absurd hm (by decide)
      · rintro ⟨v, hv2, _⟩
        exact absurd hv2 (by simp)
    | some v =>
      simp only [hv, strForm]
      constructor
      · intro hm
        exact ⟨v, rfl, hm⟩
      · rintro ⟨w, hw, hc⟩
        obtain rfl : v = w := by simpa using hw
        exact hc
  rw [hiff]

theorem category_filter_spec_witness :
    (catFilter tblC6.rows "ECNB").Sublist tblC6.rows :=
  (category_filter_spec tblC6 "ECNB" [] (by decide) (by decide)).2

/-- A failed column-count or grouping-column check makes the category
step fail with a nonempty message. -/
theorem processCategory_error (src : Table) (cat : String)
    (h : src.header.length < 9 ∨ ∃ c ∈ pivotCols, c ∉ src.header) :
    ∃ msg, processCategory src cat = Except.error msg ∧ msg ≠ "" := by
  by_cases h9 : src.header.length < 9
  · exact ⟨_, by rw [processCategory, if_pos h9], by decide⟩
  · rcases h with h9x | ⟨c, hc, hmem⟩
    · exact absurd h9x h9
    · refine ⟨"Missing columns", ?_, by decide⟩
      rw [processCategory, if_neg h9]
      have hcmem : c ∈ pivotCols.filter (fun c => !(src.header.contains c)) := by
        rw [List.mem_filter]
        refine ⟨hc, ?_⟩
        rw [Bool.not_eq_true']
        exact (Bool.not_eq_true _).mp (fun hx => hmem (List.elem_iff.mp hx))
      cases hl : pivotCols.filter (fun c => !(src.header.contains c)) with
      | nil => rw [hl] at hcmem; exact absurd hcmem (List.not_mem_nil c)
      | cons a as => simp only [hl, List.isEmpty_cons, if_false, Bool.false_eq_true]

/-- Claim C7 (confirmed): if the workbook lacks the source sheet, or the
source sheet has fewer than nine columns, or one of the four grouping
columns is absent from the (stripped) header that every filtered subset
inherits, then the pipeline returns an error carrying a nonempty message
and produces no output sheets: a grouping-column failure in the first
category already aborts the whole run. -/
theorem error_handling_spec (wb : Workbook)
    (h : lookupSheet wb sourceName = none ∨
      ∃ t, lookupSheet wb sourceName = some t ∧
        (t.header.length < 9 ∨ ∃ c ∈ pivotCols, c ∉ (stripHeader t).header)) :
    ∃ msg, buildReport wb = Except.error msg ∧ msg ≠ "" := by
  rcases h with hn | ⟨t, ht, hcond⟩
  · exact ⟨_, by rw [buildReport, hn], by decide⟩
  · have hcond2 : (stripHeader t).header.length < 9 ∨
        ∃ c ∈ pivotCols, c ∉ (stripHeader t).header := by
      rcases hcond with h9 | hm
      · exact Or.inl (by simpa [stripHeader] using h9)
      · exact Or.inr hm
    obtain ⟨msg, hmsg, hne⟩ := processCategory_error (stripHeader t) ("ECNB") hcond2
    refine ⟨msg, ?_, hne⟩
    rw [buildReport, ht]
    simp only [categories, List.foldl_cons, List.foldl_nil, addCategory, hmsg]

theorem error_handling_spec_witness :
    ∃ msg, buildReport [] = Except.error msg ∧ msg ≠ "" :=
  error_handling_spec [] (Or.inl rfl)

/-- Claim C6, evaluation at the failing input: on `wbC6` (whose source
sheet header ` Company ` carries surrounding whitespace) the run
succeeds, the emitted sheets are the original sheet followed by
Data ECNB, Pivot ECNB, Data ECMW, Pivot ECMW in that order, but the
emitted copy of the Clock Detail Report sheet is the header-stripped
sheet, not the loaded original: line 77 of src/app.py mutates the stored
sheet in place before the originals are written, contradicting the
claim, the spec and the UI text that original sheets are preserved. -/
theorem emitter_header_mutation :
    (buildReport wbC6).isOk = true ∧
      ((buildReport wbC6).toOption.getD []).map Prod.fst =
        [sourceName, "Data ECNB", "Pivot ECNB", "Data ECMW", "Pivot ECMW"] ∧
      ((buildReport wbC6).toOption.getD []).getD 0 ("", ⟨[], []⟩) =
        (sourceName, stripHeader tblC6) ∧
      (stripHeader tblC6).header ≠ tblC6.header := by
  decide

end ClockReport
